import Mathlib

/-!
Verification of the `adex` helper module (`src/adex/helpers.py`), a polars
dataframe preprocessing pipeline for gene expression tables.

Modelling conventions:
* A polars `DataFrame` is a header (list of column names) plus a list of rows,
  each row a list of cells; a cell is `Option String`, `none` standing for a
  polars null.  Cell payloads are kept as strings: after the pipeline's
  transpose every value is a string anyway, and no claim depends on numeric
  payloads, only on nullness, columns and row multiplicities.
* Fallible polars operations (missing columns, malformed frames, float casts)
  return `Except String _`; a raised Python exception is `Except.error`.
* File loading (parquet/CSV reads) is out of scope per the spec; the pipeline
  functions take the already-loaded frames as arguments.
* `models.py` of the repository is not under `src/`, so the reserved column
  sets `METADATA_COLUMNS` / `DATASET_INFO_COLUMNS` are parameters of the
  embedding, and the selector classes are reconstructed from their uses in
  `helpers.py` (field order is fixed by the positional `match` patterns).
-/

namespace Adex

/-- A dataframe cell; `none` is a polars null. -/
abbrev Cell := Option String

/-- Shallow model of a polars `DataFrame`: column names plus rows of cells. -/
structure DataFrame where
  columns : List String
  rows : List (List Cell)
  deriving DecidableEq

instance exceptDecEq {ε α : Type} [DecidableEq ε] [DecidableEq α] :
    DecidableEq (Except ε α) := fun a b =>
  match a, b with
  | .error x, .error y => decidable_of_iff (x = y) (by simp)
  | .ok x, .ok y => decidable_of_iff (x = y) (by simp)
  | .error _, .ok _ => isFalse (fun h => Except.noConfusion h)
  | .ok _, .error _ => isFalse (fun h => Except.noConfusion h)

/-- Sequential composition of fallible steps (Python: an exception aborts the
call; the next dataframe operation runs only if the previous one returned). -/
def ebind {α β : Type} : Except String α → (α → Except String β) → Except String β
  | .error e, _ => .error e
  | .ok a, f => f a

@[simp] theorem ebind_ok {α β : Type} (a : α) (f : α → Except String β) :
    ebind (.ok a) f = f a := rfl

@[simp] theorem ebind_error {α β : Type} (e : String) (f : α → Except String β) :
    ebind (.error e) f = .error e := rfl

namespace DataFrame

/-- Number of rows (`df.height` / `df.shape[0]`). -/
def height (df : DataFrame) : Nat := df.rows.length

/-- Index of the first column with the given name. -/
def colIdx (df : DataFrame) (n : String) : Option Nat :=
  df.columns.findIdx? (fun c => decide (c = n))

/-- The cell of row `r` under column `n` (null when the column is absent;
polars forbids that situation upstream, callers check presence). -/
def cellNamed (df : DataFrame) (r : List Cell) (n : String) : Cell :=
  match df.colIdx n with
  | some i => r.getD i none
  | none => none

/-- `df.select(name).to_series().to_list()`: the cells of one column,
raising when the column is missing. -/
def getColumnE (df : DataFrame) (n : String) : Except String (List Cell) :=
  match df.colIdx n with
  | some i => .ok (df.rows.map (fun r => r.getD i none))
  | none => .error ("column not found: " ++ n)

end DataFrame

/-! ## `gene_intersection` (helpers.py lines 37-53)

```python
common_genes = set()
for df in dataframes:
    if len(common_genes) == 0:  # First iteration
        common_genes.update(df.select("gene").to_series().to_list())
    else:
        common_genes.intersection_update(set(df.select("gene").to_series().to_list()))
return common_genes
```
The loop is modelled with an explicit accumulator; a Python set of the
column's values (nulls included, as `None` is a valid set element) is a
`Finset Cell`. -/

/-- The loop of `gene_intersection`: `acc` is `common_genes`. -/
def geneIntersectionLoop : List DataFrame → Finset Cell → Except String (Finset Cell)
  | [], acc => .ok acc
  | df :: rest, acc =>
    ebind (df.getColumnE "gene") fun col =>
      if acc.card = 0 then geneIntersectionLoop rest (acc ∪ col.toFinset)
      else geneIntersectionLoop rest (acc ∩ col.toFinset)

/-- `gene_intersection(dataframes)`. -/
def geneIntersection (dfs : List DataFrame) : Except String (Finset Cell) :=
  geneIntersectionLoop dfs ∅

/-- A one-gene table whose `gene` column holds `A`. -/
def tGeneA : DataFrame := ⟨["gene"], [[some "A"]]⟩

/-- A one-gene table whose `gene` column holds `B`. -/
def tGeneB : DataFrame := ⟨["gene"], [[some "B"]]⟩

/-- Claim C1 (code_bug evaluation): `gene_intersection` is claimed to return
exactly the genes common to every table and to be order invariant.  The guard
`if len(common_genes) == 0` (commented `# First iteration` in the source) also
fires whenever an intermediate intersection comes out empty, re-seeding the
accumulator with the next table.  On gene columns `[A]`, `[B]`, `[A]` the code
returns `{A}` although no gene is common to all three tables (the docstring
says "all the common genes"), and permuting the list to `[A]`, `[A]`, `[B]`
returns the empty set instead. -/
theorem gene_intersection_reseed_bug :
    geneIntersection [tGeneA, tGeneB, tGeneA] = .ok {some "A"} ∧
    geneIntersection [tGeneA, tGeneA, tGeneB] = .ok (∅ : Finset Cell) := by
  constructor <;> rfl

/-! ## `high_frequency_genes_dataframe` (helpers.py lines 69-99)

The outer join reduce (`how="outer_coalesce"`):
```python
head, *tail = dataframes
outer_joined_df = reduce(lambda l, r: l.join(r, on="gene", how="outer_coalesce"), tail, head)
```
followed by
```python
outer_joined_df.with_columns(
    pl.sum_horizontal(pl.all().is_null() / pl.all().count()).alias("Null-Percentage")
).filter(pl.col("Null-Percentage") <= allowed_null_percentage)
```
and an optional `.drop("Null-Percentage")`. -/

/-- One polars `outer_coalesce` join on `key`: rows are matched on equal
non-null keys (null keys never match), unmatched rows of either side are kept
with nulls for the other side's columns, the key column is coalesced, and
right-hand columns clashing with a left-hand name get a `_right` suffix. -/
def outerJoinCoalesce (l r : DataFrame) (key : String) : Except String DataFrame :=
  match l.colIdx key, r.colIdx key with
  | some li, some ri =>
    let rkeep := r.columns.enum.filter (fun p => decide (p.1 ≠ ri))
    let rnames := rkeep.map (fun p => if p.2 ∈ l.columns then p.2 ++ "_right" else p.2)
    let matchedL := l.rows.flatMap (fun lr =>
      match lr.getD li none with
      | none => [lr ++ rkeep.map (fun _ => (none : Cell))]
      | some k =>
        let ms := r.rows.filter (fun rr => decide (rr.getD ri none = some k))
        if ms.isEmpty then [lr ++ rkeep.map (fun _ => (none : Cell))]
        else ms.map (fun rr => lr ++ rkeep.map (fun p => rr.getD p.1 none)))
    let unmatchedR := (r.rows.filter (fun rr =>
        match rr.getD ri none with
        | none => true
        | some k => decide (¬ ∃ lr ∈ l.rows, lr.getD li none = some k))).map (fun rr =>
      (l.columns.enum.map (fun p => if p.1 = li then rr.getD ri none else (none : Cell)))
        ++ rkeep.map (fun p => rr.getD p.1 none))
    .ok ⟨l.columns ++ rnames, matchedL ++ unmatchedR⟩
  | _, _ => .error ("join: key column not found: " ++ key)

/-- The left-to-right `outer_coalesce` join reduce over a list of tables on
`gene`; the `head, *tail` unpacking raises on an empty list. -/
def outerJoinAll (dfs : List DataFrame) : Except String DataFrame :=
  match dfs with
  | [] => .error "cannot unpack head of an empty list of dataframes"
  | head :: tail => tail.foldlM (fun acc df => outerJoinCoalesce acc df "gene") head

/-- An exact, unnormalised fraction `num / den`.  The Python code computes
its percentages with float division; the claims' thresholds and the cells'
null counts are exact small rationals, so exact fractions model them (and,
unlike the library rationals, they evaluate inside the kernel).  A zero
denominator arises exactly where polars float division by zero yields
infinity; the cross-multiplication order below makes such a value larger
than every finite threshold, matching the float comparison. -/
structure Frac where
  num : Int
  den : Nat
  deriving DecidableEq

/-- Fraction addition without normalisation. -/
def Frac.add (a b : Frac) : Frac := ⟨a.num * b.den + b.num * a.den, a.den * b.den⟩

/-- Fraction comparison by cross multiplication. -/
def Frac.le (a b : Frac) : Prop := a.num * (b.den : Int) ≤ b.num * (a.den : Int)

instance : LE Frac := ⟨Frac.le⟩

instance Frac.decLe : ∀ a b : Frac, Decidable (a ≤ b) := fun a b =>
  (inferInstance : Decidable (a.num * (b.den : Int) ≤ b.num * (a.den : Int)))

/-- Chained comparison through a fraction with a positive denominator. -/
theorem Frac.le_trans' {a b c : Frac} (hb : 0 < b.den) (h1 : a ≤ b) (h2 : b ≤ c) :
    a ≤ c := by
  have hb' : (0 : Int) < (b.den : Int) := by exact_mod_cast hb
  have ha' : (0 : Int) ≤ (a.den : Int) := Int.natCast_nonneg _
  have hc' : (0 : Int) ≤ (c.den : Int) := Int.natCast_nonneg _
  have h1' : a.num * (b.den : Int) ≤ b.num * (a.den : Int) := h1
  have h2' : b.num * (c.den : Int) ≤ c.num * (b.den : Int) := h2
  show a.num * (c.den : Int) ≤ c.num * (a.den : Int)
  apply le_of_mul_le_mul_right _ hb'
  calc a.num * (c.den : Int) * (b.den : Int)
      = a.num * (b.den : Int) * (c.den : Int) := by ring
    _ ≤ b.num * (a.den : Int) * (c.den : Int) := mul_le_mul_of_nonneg_right h1' hc'
    _ = b.num * (c.den : Int) * (a.den : Int) := by ring
    _ ≤ c.num * (b.den : Int) * (a.den : Int) := mul_le_mul_of_nonneg_right h2' ha'
    _ = c.num * (a.den : Int) * (b.den : Int) := by ring

/-- Number of non-null cells of column `j` (`Expr.count`, which in polars
counts the non-null elements of the column). -/
def colNonNullCount (df : DataFrame) (j : Nat) : Nat :=
  df.rows.countP (fun r => (r.getD j none).isSome)

/-- The per-row value of the code's `Null-Percentage` column:
`pl.sum_horizontal(pl.all().is_null() / pl.all().count())`, i.e. the sum over
all columns (the `gene` key included) of `is_null / non-null-count-of-column`.
Note this is not the row's null fraction: each null cell is divided by the
number of non-null cells of its own column, not by the number of columns. -/
def nullPercentageRow (df : DataFrame) (r : List Cell) : Frac :=
  ((List.range df.columns.length).map
    (fun j => Frac.mk (if (r.getD j none).isNone then 1 else 0)
      (colNonNullCount df j))).foldl Frac.add ⟨0, 1⟩

/-- `high_frequency_genes_dataframe(dataframes, allowed_null_percentage,
drop_frequencies_column)`.  The `with_columns(...).filter(...).drop(...)`
dance is modelled as one row filter, plus an appended `Null-Percentage`
column when the caller keeps it; this is the source's behaviour whenever the
joined frame does not already own a `Null-Percentage` column. -/
def highFrequencyGenesDataframe (dfs : List DataFrame) (thr : Frac)
    (dropFreq : Bool) : Except String DataFrame :=
  ebind (outerJoinAll dfs) fun j =>
    let kept := j.rows.filter (fun r => decide (nullPercentageRow j r ≤ thr))
    if dropFreq then .ok ⟨j.columns, kept⟩
    else .ok ⟨j.columns ++ ["Null-Percentage"],
      kept.map (fun r => r ++ [some (toString (nullPercentageRow j r).num
        ++ "/" ++ toString (nullPercentageRow j r).den)])⟩

/-- The row formula the spec states for the frequency filter: count of null
cells across all non-key columns of the row, divided by the count of all
non-key columns. -/
def specNullPercentageRow (df : DataFrame) (r : List Cell) : Frac :=
  let nonKey := df.columns.enum.filter (fun p => decide (p.2 ≠ "gene"))
  ⟨(nonKey.filter (fun p => (r.getD p.1 none).isNone)).length, nonKey.length⟩

/-- A single table with genes `g1, g2, g3` and one sample column `S1` that is
null for `g1`. -/
def tNulls : DataFrame :=
  ⟨["gene", "S1"],
   [[some "g1", none], [some "g2", some "1.0"], [some "g3", some "2.0"]]⟩

/-- Claim C2 (code_bug evaluation): the spec requires every retained row to
satisfy (nulls across non-key columns) / (number of non-key columns) ≤
threshold.  The code instead filters on the sum over all columns of
`is_null / column-non-null-count`, a quantity scaled by the column heights.
On `tNulls` with threshold `1/2` the code's value for the `g1` row is
`0/3 + 1/2 = 1/2`, so the row is retained, although its non-key null
fraction is `1/1 = 1 > 1/2` — contradicting the claim (and the docstring's
"genes that appear in a specific percent of the samples"). -/
theorem high_frequency_retains_high_null_row :
    highFrequencyGenesDataframe [tNulls] ⟨1, 2⟩ true = .ok tNulls ∧
    nullPercentageRow tNulls [some "g1", none] ≤ ⟨1, 2⟩ ∧
    (⟨1, 2⟩ : Frac) ≤ nullPercentageRow tNulls [some "g1", none] ∧
    specNullPercentageRow tNulls [some "g1", none] = ⟨1, 1⟩ ∧
    ¬ specNullPercentageRow tNulls [some "g1", none] ≤ ⟨1, 2⟩ := by
  refine ⟨by rfl, by decide, by decide, by decide, by decide⟩

/-- Claim C8: raising `allowed_null_percentage` never drops a row that the
lower threshold retained: both runs filter the same outer-joined frame on
`Null-Percentage ≤ threshold`, and the per-row `Null-Percentage` value does
not depend on the threshold. -/
theorem high_frequency_threshold_monotone (dfs : List DataFrame)
    (t t' : Frac) (dF : Bool) (out out' : DataFrame)
    (htpos : 0 < t.den) (hle : t ≤ t')
    (h : highFrequencyGenesDataframe dfs t dF = .ok out)
    (h' : highFrequencyGenesDataframe dfs t' dF = .ok out') :
    ∀ r ∈ out.rows, r ∈ out'.rows := by
  intro r hr
  unfold highFrequencyGenesDataframe at h h'
  cases hj : outerJoinAll dfs with
  | error e => rw [hj] at h; simp at h
  | ok j =>
    rw [hj] at h h'
    simp only [ebind_ok] at h h'
    cases dF with
    | true =>
      simp only [if_true] at h h'
      cases h; cases h'
      simp only [List.mem_filter, decide_eq_true_eq] at hr ⊢
      exact ⟨hr.1, Frac.le_trans' htpos hr.2 hle⟩
    | false =>
      simp only [Bool.false_eq_true, if_false] at h h'
      cases h; cases h'
      simp only [List.mem_map] at hr ⊢
      obtain ⟨r0, hr0, rfl⟩ := hr
      refine ⟨r0, ?_, rfl⟩
      simp only [List.mem_filter, decide_eq_true_eq] at hr0 ⊢
      exact ⟨hr0.1, Frac.le_trans' htpos hr0.2 hle⟩

/-- Claim C8 witness: on `tNulls` with thresholds `0 ≤ 1/2`, the `g2` row
retained at threshold `0` is also retained at threshold `1/2`. -/
theorem high_frequency_threshold_monotone_witness :
    [some "g2", some "1.0"] ∈ tNulls.rows :=
  high_frequency_threshold_monotone [tNulls] ⟨0, 1⟩ ⟨1, 2⟩ true
    ⟨["gene", "S1"], [[some "g2", some "1.0"], [some "g3", some "2.0"]]⟩
    tNulls (by decide) (by decide) (by rfl) (by rfl)
    [some "g2", some "1.0"] (by decide)

/-! ## Selector data model

`models.py` is not part of `src/`; the selector classes are reconstructed
from their positional `match` patterns and attribute accesses in
`helpers.py`, and the reserved column name sets `METADATA_COLUMNS` and
`DATASET_INFO_COLUMNS` are taken as parameters `META` / `INFO` below. -/

/-- A condition (disease category); the code uses `condition.name`. -/
structure Condition where
  name : String
  deriving DecidableEq

/-- A tissue enum member; the code uses `tissue.value`. -/
structure Tissue where
  value : String
  deriving DecidableEq

/-- A sequencing technique enum member; the filters use `.value`, the plot
titles use `.name`. -/
structure SequencingTechnique where
  name : String
  value : String
  deriving DecidableEq

/-- The `DataLoader` variants, field order fixed by the positional patterns
in `helpers.py`.  Python's class hierarchy is open, so `other` stands for any
further `DataLoader` subclass that the two `match` statements do not name; it
carries the string interpolated by `plot_condition_2d`'s error message. -/
inductive DataLoader where
  | conditionDataLoader (condition : Condition)
  | conditionTissueDataLoader (condition : Condition) (tissue : Tissue)
  | conditionSequencingDataLoader (condition : Condition)
      (sequencingTechnique : SequencingTechnique)
  | conditionSequencingTissueDataLoader (condition : Condition)
      (sequencingTechnique : SequencingTechnique) (tissue : Tissue)
      (genes : Option (List String))
  | fileDataLoader (condition : Condition) (fileName : String)
      (genes : Option (List String)) (samples : Option (List String))
  | other (descr : String)
  deriving DecidableEq

/-- Iteration order of a CPython string set: `list(s)` enumerates the set's
elements, each exactly once, in an order that depends on the interpreter's
randomised hash seed.  A `SetEnum` is one such enumeration strategy; code
that converts sets to lists is parameterised by it. -/
structure SetEnum where
  enum : Finset String → List String
  mem_enum : ∀ s x, x ∈ enum s ↔ x ∈ s
  nodup_enum : ∀ s, (enum s).Nodup

/-! ## Polars operations used by the preprocessing pipeline -/

namespace DataFrame

/-- `df.select(names)`: project the named columns in the given order,
raising when one is missing. -/
def select (df : DataFrame) (names : List String) : Except String DataFrame :=
  if names.all (fun n => decide (n ∈ df.columns)) then
    .ok ⟨names, df.rows.map (fun r => names.map (fun n => df.cellNamed r n))⟩
  else .error "select: column not found"

/-- `df.select(pl.exclude(name))`: drop every column with the given name. -/
def selectExclude (df : DataFrame) (name : String) : DataFrame :=
  let keep := df.columns.enum.filter (fun p => decide (p.2 ≠ name))
  ⟨keep.map (fun p => p.2), df.rows.map (fun r => keep.map (fun p => r.getD p.1 none))⟩

/-- `.cast(pl.Float64)`: nulls stay null, parseable values stay non-null
(polars reformats them, which no claim observes), unparseable values raise.
`parse` is the runtime's float parsing function. -/
def castF64 (parse : String → Option String) (df : DataFrame) :
    Except String DataFrame :=
  ebind (df.rows.mapM (fun r => r.mapM (fun c =>
    match c with
    | none => Except.ok (none : Cell)
    | some s =>
      match parse s with
      | some v => Except.ok (some v)
      | none => Except.error ("cast to Float64 failed: " ++ s))))
    (fun rows => .ok ⟨df.columns, rows⟩)

/-- `base.with_columns(other)`: add the columns of `other`, overwriting any
base column of the same name cell-wise. -/
def withColumnsDF (base other : DataFrame) : DataFrame :=
  let extra := other.columns.enum.filter (fun p => decide (p.2 ∉ base.columns))
  ⟨base.columns ++ extra.map (fun p => p.2),
   (base.rows.zip other.rows).map (fun pr =>
     base.columns.enum.map (fun p =>
       if p.2 ∈ other.columns then other.cellNamed pr.2 p.2 else pr.1.getD p.1 none)
     ++ extra.map (fun p => pr.2.getD p.1 none))⟩

/-- `df.transpose(include_header=True, header_name="Sample")`: one row per
original column, holding the column name and then that column's cells; the
new header is `Sample, column_0, column_1, ...`. -/
def transposeIH (df : DataFrame) : DataFrame :=
  ⟨"Sample" :: (List.range df.rows.length).map (fun i => "column_" ++ toString i),
   df.columns.enum.map (fun p => some p.2 :: df.rows.map (fun r => r.getD p.1 none))⟩

/-- `.rename(df.head(1).to_dicts().pop())`: rename each column to the
corresponding value of the first row.  `pop` raises on an empty frame, and a
null first-row value is not a valid new column name. -/
def renameByHeadRow (df : DataFrame) : Except String DataFrame :=
  match df.rows with
  | [] => .error "rename: no header row"
  | r0 :: _ =>
    match (r0.mapM id : Option (List String)) with
    | none => .error "rename: null header value"
    | some names =>
      if names.length = df.columns.length then .ok ⟨names, df.rows⟩
      else .error "rename: header row length mismatch"

/-- `.slice(1,)`: drop the first row. -/
def slice1 (df : DataFrame) : DataFrame := ⟨df.columns, df.rows.drop 1⟩

/-- `.rename({old: nw})`: raises when `old` is absent. -/
def rename1 (df : DataFrame) (old nw : String) : Except String DataFrame :=
  if old ∈ df.columns then
    .ok ⟨df.columns.map (fun c => if c = old then nw else c), df.rows⟩
  else .error ("rename: column not found: " ++ old)

/-- `df.filter(pl.col(c) == v)`: keep rows whose cell equals the value (a
null compares false); raises when the column is missing. -/
def filterEq (df : DataFrame) (c v : String) : Except String DataFrame :=
  if c ∈ df.columns then
    .ok ⟨df.columns, df.rows.filter (fun r => decide (df.cellNamed r c = some v))⟩
  else .error ("filter: column not found: " ++ c)

/-- `df.filter((pl.col(c1) == v1) & (pl.col(c2) == v2))`. -/
def filterEq2 (df : DataFrame) (c1 v1 c2 v2 : String) : Except String DataFrame :=
  if c1 ∈ df.columns ∧ c2 ∈ df.columns then
    .ok ⟨df.columns, df.rows.filter (fun r =>
      decide (df.cellNamed r c1 = some v1 ∧ df.cellNamed r c2 = some v2))⟩
  else .error "filter: column not found"

/-- `df.filter(pl.col(c).is_in(vals))`: a null is in no list. -/
def filterIn (df : DataFrame) (c : String) (vals : List String) :
    Except String DataFrame :=
  if c ∈ df.columns then
    .ok ⟨df.columns, df.rows.filter (fun r =>
      decide (∃ v ∈ vals, df.cellNamed r c = some v))⟩
  else .error ("filter: column not found: " ++ c)

/-- Keep the first row for each key value (`seen` are the already emitted
keys). -/
def keepFirstBy (k : List Cell → Cell) : List (List Cell) → List Cell → List (List Cell)
  | [], _ => []
  | r :: rs, seen =>
    if k r ∈ seen then keepFirstBy k rs seen
    else r :: keepFirstBy k rs (k r :: seen)

/-- `df.unique(subset=[c])`: one row per key value; polars keeps an
arbitrary one of each group (`keep="any"`), modelled as the first. -/
def uniqueBy (df : DataFrame) (c : String) : Except String DataFrame :=
  match df.colIdx c with
  | some i => .ok ⟨df.columns, keepFirstBy (fun r => r.getD i none) df.rows []⟩
  | none => .error ("unique: column not found: " ++ c)

/-- The indexed right-hand columns kept by a join: all but the key column
`ri`. -/
def rkeepCols (r : DataFrame) (ri : Nat) : List (Nat × String) :=
  r.columns.enum.filter (fun p => decide (p.1 ≠ ri))

/-- `l.join(r, left_on=lk, right_on=rk, how="inner")`: rows pair on equal
non-null keys, the right key column is dropped, right column names clashing
with a left name get a `_right` suffix. -/
def innerJoin (l r : DataFrame) (lk rk : String) : Except String DataFrame :=
  match l.colIdx lk, r.colIdx rk with
  | some li, some ri =>
    .ok ⟨l.columns ++ (rkeepCols r ri).map
        (fun p => if p.2 ∈ l.columns then p.2 ++ "_right" else p.2),
      l.rows.flatMap (fun lr =>
        match lr.getD li none with
        | none => []
        | some k => (r.rows.filter (fun rr => decide (rr.getD ri none = some k))).map
            (fun rr => lr ++ (rkeepCols r ri).map (fun p => rr.getD p.1 none)))⟩
  | _, _ => .error "join: key column not found"

/-- Number of null cells of column `j`. -/
def colNullCount (df : DataFrame) (j : Nat) : Nat :=
  df.rows.countP (fun r => (r.getD j none).isNone)

/-- The indexed columns surviving the null pruning of line 196: those with
`s.null_count() / df.height <= allowed_null_percentage`. -/
def pruneKeep (df : DataFrame) (thr : Frac) : List (Nat × String) :=
  df.columns.enum.filter (fun p =>
    decide ((⟨colNullCount df p.1, df.height⟩ : Frac) ≤ thr))

/-- Line 196: keep only the columns whose null fraction is at most the
allowed percentage. -/
def colNullPrune (df : DataFrame) (thr : Frac) : DataFrame :=
  ⟨(pruneKeep df thr).map (fun p => p.2),
   df.rows.map (fun r => (pruneKeep df thr).map (fun p => r.getD p.1 none))⟩

/-- The indexed columns surviving `df.drop(names)`. -/
def dropKeep (df : DataFrame) (names : List String) : List (Nat × String) :=
  df.columns.enum.filter (fun p => decide (p.2 ∉ names))

/-- `df.drop(names)`: remove the named columns, ignoring absent names. -/
def drop (df : DataFrame) (names : List String) : DataFrame :=
  ⟨(dropKeep df names).map (fun p => p.2),
   df.rows.map (fun r => (dropKeep df names).map (fun p => r.getD p.1 none))⟩

end DataFrame

/-! ## Gene / sample selection helpers (helpers.py lines 204-216) -/

/-- `fixed_columns`: the reserved names (plus `Sample`) present in the
frame. -/
def fixedColumns (META INFO : List String) (df : DataFrame) : Finset String :=
  (({"Sample"} : Finset String) ∪ META.toFinset ∪ INFO.toFinset) ∩ df.columns.toFinset

/-- `common_columns_set`: fixed columns and requested genes, restricted to
the existing columns. -/
def commonColumnsSet (META INFO : List String) (df : DataFrame)
    (genes : List String) : Finset String :=
  (fixedColumns META INFO df ∪ genes.toFinset) ∩ df.columns.toFinset

/-- `common_columns`, the re-ordered selection list:
`["Sample"] + list(fixed_columns - {"Sample"}) + list(common_columns_set -
fixed_columns)`, the two `list(...)` conversions enumerating Python sets
via `e`. -/
def commonColumns (e : SetEnum) (META INFO : List String) (df : DataFrame)
    (genes : List String) : List String :=
  "Sample" ::
    (e.enum (fixedColumns META INFO df \ {"Sample"})
      ++ e.enum (commonColumnsSet META INFO df genes \ fixedColumns META INFO df))

/-- `_keep_only_selected_genes(input, genes)`: `input.select(common_columns)`. -/
def keepOnlySelectedGenes (e : SetEnum) (META INFO : List String)
    (df : DataFrame) (genes : List String) : Except String DataFrame :=
  df.select (commonColumns e META INFO df genes)

/-- `_keep_only_selected_samples(input, samples)`. -/
def keepOnlySelectedSamples (df : DataFrame) (samples : List String) :
    Except String DataFrame :=
  df.filterIn "Sample" samples

/-! ## `get_pre_processed_dataset` (helpers.py lines 102-201)

The parquet/CSV loading (lines 120-124, 154, 157) is file I/O and out of
scope; the pipeline takes the loaded frames as arguments: `data` (the per
sample gene expression tables), `metadata`, and `datasetsInfo`. -/

/-- `if genes is not None: ... _keep_only_selected_genes(...)` (lines
176-178 and 187-188). -/
def optGeneFilter (e : SetEnum) (META INFO : List String) (df : DataFrame) :
    Option (List String) → Except String DataFrame
  | some gs => keepOnlySelectedGenes e META INFO df gs
  | none => .ok df

/-- `if samples is not None: ... _keep_only_selected_samples(...)` (lines
179-180). -/
def optSampleFilter (df : DataFrame) :
    Option (List String) → Except String DataFrame
  | some ss => keepOnlySelectedSamples df ss
  | none => .ok df

/-- The "Extra data filtering" `match` (lines 168-190).  The final
`case _: pass` arm covers `ConditionDataLoader` and every unknown loader. -/
def extraFilter (e : SetEnum) (META INFO : List String) (dl : DataLoader)
    (df : DataFrame) : Except String DataFrame :=
  match dl with
  | .conditionTissueDataLoader _ t => df.filterEq "Tissue" t.value
  | .conditionSequencingDataLoader _ s => df.filterEq "Method" s.value
  | .fileDataLoader _ _ genes samples =>
    ebind (optGeneFilter e META INFO df genes) fun df1 =>
      optSampleFilter df1 samples
  | .conditionSequencingTissueDataLoader _ s t genes =>
    ebind (df.filterEq2 "Tissue" t.value "Method" s.value) fun df1 =>
      optGeneFilter e META INFO df1 genes
  | _ => .ok df

/-- The pipeline up to and including the selector-specific filter: join the
loaded tables on `gene` (lines 132-137), transpose and fix the header (lines
140-146), cast the non-`Sample` columns to Float64 (lines 149-151), join
with the de-duplicated metadata on `Sample` and with the datasets info on
`GSE = Dataset` (lines 156-165), then apply the selector filter. -/
def preFiltered (e : SetEnum) (parse : String → Option String)
    (META INFO : List String) (dl : DataLoader) (data : List DataFrame)
    (metadata datasetsInfo : DataFrame) : Except String DataFrame :=
  ebind (outerJoinAll data) fun joined =>
  ebind joined.transposeIH.renameByHeadRow fun t1 =>
  ebind (t1.slice1.rename1 "gene" "Sample") fun t2 =>
  ebind (t2.select ["Sample"]) fun sampleCol =>
  ebind ((t2.selectExclude "Sample").castF64 parse) fun rest =>
  ebind (metadata.uniqueBy "Sample") fun mu =>
  ebind ((sampleCol.withColumnsDF rest).innerJoin mu "Sample" "Sample") fun j1 =>
  ebind (j1.innerJoin datasetsInfo "GSE" "Dataset") fun j2 =>
  extraFilter e META INFO dl j2

/-- `get_pre_processed_dataset`: after the selector filter, a frame with no
rows short-circuits to an absent result (lines 192-193); otherwise columns
whose null fraction exceeds the threshold are pruned (line 196) and, unless
metadata is requested, the reserved columns are dropped (lines 198-201). -/
def getPreProcessedDataset (e : SetEnum) (parse : String → Option String)
    (META INFO : List String) (dl : DataLoader) (data : List DataFrame)
    (metadata datasetsInfo : DataFrame) (thr : Frac)
    (returnMetadata : Bool) : Except String (Option DataFrame) :=
  match preFiltered e parse META INFO dl data metadata datasetsInfo with
  | .error msg => .error msg
  | .ok t =>
    if t.height = 0 then .ok none
    else
      let p := t.colNullPrune thr
      if returnMetadata then .ok (some p)
      else .ok (some ((p.drop META).drop INFO))

/-! ## `plot_condition_2d` title dispatch (helpers.py lines 243-255)

Only the `match data_loader` block is modelled: the matplotlib styling and
scatter calls around it are rendering-backend work, out of scope per the
spec.  The block either picks a title or raises `ValueError`. -/

/-- The title chosen by `plot_condition_2d`, or the `ValueError` it raises
for a loader variant the `match` does not handle. -/
def plotTitle (dl : DataLoader) (method : String) : Except String String :=
  match dl with
  | .conditionDataLoader c =>
    .ok (method ++ " of \x27" ++ c.name ++ "\x27 Dataset")
  | .conditionTissueDataLoader c t =>
    .ok (method ++ " of \x27" ++ c.name ++ "|" ++ t.value ++ "\x27 Dataset")
  | .fileDataLoader c f _ _ =>
    .ok (method ++ " of \x27" ++ c.name ++ "|" ++ f ++ "\x27 Dataset")
  | .conditionSequencingDataLoader c s =>
    .ok (method ++ " of \x27" ++ c.name ++ "|" ++ s.name ++ "\x27 Dataset")
  | .conditionSequencingTissueDataLoader c s t _ =>
    .ok (method ++ " of \x27" ++ c.name ++ "|" ++ s.name ++ "|" ++ t.value
      ++ "\x27 Dataset")
  | .other d =>
    .error ("DataLoader \x27" ++ d ++ "\x27 not handled in plotting")

/-! ## Concrete set enumerations and fixtures used by the witnesses -/

/-- A canonical list of a finite string set's elements (ascending insertion
sort of any representative; sorted permutations are equal, so the choice of
representative does not matter). -/
def sortedListOf (s : Finset String) : List String :=
  Quot.liftOn s.val (fun l => l.insertionSort (· ≤ ·)) (fun l1 l2 h =>
    List.eq_of_perm_of_sorted
      ((List.perm_insertionSort _ l1).trans
        ((Quotient.exact (Quot.sound h : (l1 : Multiset String) = l2)).trans
          (List.perm_insertionSort _ l2).symm))
      (List.sorted_insertionSort _ l1) (List.sorted_insertionSort _ l2))

/-- `sortedListOf` is a representative of the set's multiset. -/
theorem coe_sortedListOf (s : Finset String) :
    ((sortedListOf s : List String) : Multiset String) = s.val := by
  rcases s with ⟨m, nd⟩
  induction m using Quot.inductionOn with
  | h l =>
    show ((l.insertionSort (· ≤ ·) : List String) : Multiset String) = _
    exact Quot.sound (List.perm_insertionSort _ l)

/-- Membership in `sortedListOf`. -/
theorem mem_sortedListOf (s : Finset String) (x : String) :
    x ∈ sortedListOf s ↔ x ∈ s := by
  rw [Finset.mem_def, ← coe_sortedListOf s, Multiset.mem_coe]

/-- `sortedListOf` has no duplicates. -/
theorem nodup_sortedListOf (s : Finset String) : (sortedListOf s).Nodup := by
  have h := s.nodup
  rw [← coe_sortedListOf s] at h
  exact h

/-- Enumerate a set by a priority list first (the concrete stand-in for one
hash-seed iteration order), then the remaining elements in ascending
order. -/
def enumWith (order : List String) (s : Finset String) : List String :=
  order.dedup.filter (fun y => decide (y ∈ s)) ++ sortedListOf (s \ order.toFinset)

/-- `enumWith` enumerates exactly the set's elements. -/
theorem mem_enumWith (order : List String) (s : Finset String) (x : String) :
    x ∈ enumWith order s ↔ x ∈ s := by
  unfold enumWith
  simp only [List.mem_append, List.mem_filter, decide_eq_true_eq, mem_sortedListOf,
    Finset.mem_sdiff, List.mem_toFinset, List.mem_dedup]
  constructor
  · rintro (⟨-, h⟩ | ⟨h, -⟩) <;> exact h
  · intro hx
    by_cases ho : x ∈ order
    · exact Or.inl ⟨ho, hx⟩
    · exact Or.inr ⟨hx, ho⟩

/-- `enumWith` enumerates each element once. -/
theorem nodup_enumWith (order : List String) (s : Finset String) :
    (enumWith order s).Nodup := by
  unfold enumWith
  apply List.Nodup.append
  · exact (List.nodup_dedup order).filter _
  · exact nodup_sortedListOf _
  · intro x hx1 hx2
    simp only [List.mem_filter, List.mem_dedup, decide_eq_true_eq] at hx1
    rw [mem_sortedListOf, Finset.mem_sdiff, List.mem_toFinset] at hx2
    exact hx2.2 hx1.1

/-- The set-iteration strategy that visits the priority list first. -/
def listEnum (order : List String) : SetEnum :=
  ⟨enumWith order, mem_enumWith order, nodup_enumWith order⟩

/-- A concrete set enumeration (ascending order), one realisable iteration
order of a Python string set. -/
def eSorted : SetEnum := listEnum []

/-- A float-parsing oracle for concrete runs (the witnesses' cell payloads
are all parseable, so the identity suffices). -/
def parseId : String → Option String := fun s => some s

/-- A loaded expression table: one gene `g1`, two samples. -/
def dfData : DataFrame :=
  ⟨["gene", "S1", "S2"], [[some "g1", some "1.5", some "2.5"]]⟩

/-- A metadata table for samples `S1`, `S2` of dataset `GSE1`. -/
def dfMeta : DataFrame :=
  ⟨["Sample", "GSE", "Tissue"],
   [[some "S1", some "GSE1", some "Blood"], [some "S2", some "GSE1", some "Blood"]]⟩

/-- A datasets-info table describing `GSE1`. -/
def dfInfo : DataFrame :=
  ⟨["Dataset", "Platform"], [[some "GSE1", some "P1"]]⟩

/-! ## Claim C3: dispatch on an unrecognised selector variant -/

/-- Claim C3 counterexample: the claim says an unrecognised selector variant
reaching the preprocessing filter step raises a configuration error.  It does
not: the `match` in `get_pre_processed_dataset` ends in `case _: pass`, so an
unknown loader flows through the filter step silently, with no filtering and
no error. -/
theorem extra_filter_unknown_silent_pass :
    extraFilter eSorted ["GSE", "Tissue"] ["Platform"]
      (DataLoader.other "CustomLoader") dfMeta = .ok dfMeta := rfl

/-- Claim C3 amended: only the plotting helper's title dispatch fails loudly
on an unrecognised selector variant, raising a `ValueError` that names the
variant; the preprocessing pipeline's filter step instead passes such a
variant through silently, applying no filter and raising nothing. -/
theorem unknown_loader_dispatch_behaviour (e : SetEnum) (META INFO : List String)
    (d m : String) (df : DataFrame) :
    extraFilter e META INFO (DataLoader.other d) df = .ok df ∧
    plotTitle (DataLoader.other d) m =
      .error ("DataLoader \x27" ++ d ++ "\x27 not handled in plotting") :=
  ⟨rfl, rfl⟩

/-! ## Claim C4: empty filtered result short-circuits to an absent value -/

/-- Claim C4: whenever the metadata-joined, selector-filtered table has zero
rows, `get_pre_processed_dataset` returns `None` — not an empty table and not
an exception — for every selector, threshold and `return_metadata` flag. -/
theorem empty_filtered_returns_none (e : SetEnum) (parse : String → Option String)
    (META INFO : List String) (dl : DataLoader) (data : List DataFrame)
    (metadata datasetsInfo : DataFrame) (thr : Frac) (rm : Bool) (t : DataFrame)
    (h1 : preFiltered e parse META INFO dl data metadata datasetsInfo = .ok t)
    (h2 : t.height = 0) :
    getPreProcessedDataset e parse META INFO dl data metadata datasetsInfo thr rm =
      .ok none := by
  unfold getPreProcessedDataset
  rw [h1]
  simp [h2]

/-- Claim C4 witness: a tissue selector for `Brain` on blood-only metadata
filters every row away, and the concrete pipeline returns `None`. -/
theorem empty_filtered_returns_none_witness :
    getPreProcessedDataset eSorted parseId ["GSE", "Tissue"] ["Platform"]
      (DataLoader.conditionTissueDataLoader ⟨"lupus"⟩ ⟨"Brain"⟩)
      [dfData] dfMeta dfInfo ⟨1, 5⟩ true = .ok none :=
  empty_filtered_returns_none eSorted parseId ["GSE", "Tissue"] ["Platform"]
    (DataLoader.conditionTissueDataLoader ⟨"lupus"⟩ ⟨"Brain"⟩)
    [dfData] dfMeta dfInfo ⟨1, 5⟩ true
    ⟨["Sample", "g1", "GSE", "Tissue", "Platform"], []⟩ (by rfl) (by rfl)

/-! ## Claim C5: `return_metadata=False` strips every reserved column -/

/-- An entry of `l.enum` carries an element of `l`. -/
theorem snd_mem_of_mem_enum {α : Type} {p : Nat × α} {l : List α}
    (h : p ∈ l.enum) : p.2 ∈ l := by
  rw [List.mem_enum_iff_getElem?] at h
  obtain ⟨h1, h2⟩ := List.getElem?_eq_some.1 h
  exact h2 ▸ List.getElem_mem h1

/-- Membership in the columns of `df.drop names`. -/
theorem DataFrame.mem_drop_columns {df : DataFrame} {names : List String}
    {c : String} (h : c ∈ (df.drop names).columns) : c ∈ df.columns ∧ c ∉ names := by
  unfold DataFrame.drop DataFrame.dropKeep at h
  simp only [List.mem_map, List.mem_filter, decide_eq_true_eq] at h
  obtain ⟨p, ⟨hp, hdec⟩, rfl⟩ := h
  exact ⟨snd_mem_of_mem_enum hp, hdec⟩

/-- Claim C5: when `return_metadata` is false, the returned table's columns
contain no reserved metadata column and no reserved dataset-info column: the
final step drops every column named in either reserved set. -/
theorem strip_metadata_columns (e : SetEnum) (parse : String → Option String)
    (META INFO : List String) (dl : DataLoader) (data : List DataFrame)
    (metadata datasetsInfo : DataFrame) (thr : Frac) (df : DataFrame)
    (h : getPreProcessedDataset e parse META INFO dl data metadata datasetsInfo
      thr false = .ok (some df)) :
    ∀ c ∈ df.columns, c ∉ META ∧ c ∉ INFO := by
  intro c hc
  unfold getPreProcessedDataset at h
  cases hp : preFiltered e parse META INFO dl data metadata datasetsInfo with
  | error msg => rw [hp] at h; simp at h
  | ok t =>
    rw [hp] at h
    by_cases h0 : t.height = 0
    · simp [h0] at h
    · simp only [h0, if_false, Bool.false_eq_true, Except.ok.injEq,
        Option.some.injEq] at h
      subst h
      have h2 := DataFrame.mem_drop_columns hc
      have h3 := DataFrame.mem_drop_columns h2.1
      exact ⟨h3.2, h2.2⟩

/-- Claim C5 witness: the concrete run with `return_metadata=False` returns
the `Sample` and `g1` columns only, and `Sample` is in neither reserved
set. -/
theorem strip_metadata_columns_witness :
    "Sample" ∉ ["GSE", "Tissue"] ∧ "Sample" ∉ ["Platform"] :=
  strip_metadata_columns eSorted parseId ["GSE", "Tissue"] ["Platform"]
    (DataLoader.conditionDataLoader ⟨"lupus"⟩) [dfData] dfMeta dfInfo ⟨1, 5⟩
    ⟨["Sample", "g1"], [[some "S1", some "1.5"], [some "S2", some "2.5"]]⟩
    (by rfl) "Sample" (by decide)

/-! ## Claims C6 and C7: `_keep_only_selected_genes` -/

/-- Every name in `common_columns` is an existing column of the input, once
the input has a `Sample` column: both set enumerations are intersected with
the existing columns before conversion. -/
theorem mem_commonColumns (e : SetEnum) (META INFO : List String)
    (df : DataFrame) (genes : List String) (hS : "Sample" ∈ df.columns) :
    ∀ n ∈ commonColumns e META INFO df genes, n ∈ df.columns := by
  intro n hn
  rcases List.mem_cons.1 hn with rfl | hn2
  · exact hS
  rcases List.mem_append.1 hn2 with h1 | h1
  · have h2 := (e.mem_enum _ n).1 h1
    simp only [fixedColumns, Finset.mem_sdiff, Finset.mem_inter,
      List.mem_toFinset] at h2
    exact h2.1.2
  · have h2 := (e.mem_enum _ n).1 h1
    simp only [commonColumnsSet, Finset.mem_sdiff, Finset.mem_inter,
      List.mem_toFinset] at h2
    exact h2.1.2

/-- With a `Sample` column present, `_keep_only_selected_genes` succeeds and
projects exactly the `common_columns` list. -/
theorem keepOnlySelectedGenes_eq_ok (e : SetEnum) (META INFO : List String)
    (df : DataFrame) (genes : List String) (hS : "Sample" ∈ df.columns) :
    keepOnlySelectedGenes e META INFO df genes =
      .ok ⟨commonColumns e META INFO df genes,
        df.rows.map (fun r =>
          (commonColumns e META INFO df genes).map (fun n => df.cellNamed r n))⟩ := by
  unfold keepOnlySelectedGenes DataFrame.select
  rw [if_pos]
  rw [List.all_eq_true]
  intro x hx
  exact decide_eq_true (mem_commonColumns e META INFO df genes hS x hx)

/-- The enumeration of a set holds exactly its elements. -/
theorem enum_toFinset (e : SetEnum) (s : Finset String) :
    (e.enum s).toFinset = s := by
  ext x
  rw [List.mem_toFinset, e.mem_enum]

/-- Claim C6: on an input with a `Sample` column, `_keep_only_selected_genes`
returns a table whose first column is `Sample` and whose columns contain no
requested gene that is absent from the input's columns (every selected name
comes from a set that was intersected with the existing columns). -/
theorem select_genes_sample_first (e : SetEnum) (META INFO : List String)
    (df : DataFrame) (genes : List String) (hS : "Sample" ∈ df.columns) :
    ∃ out, keepOnlySelectedGenes e META INFO df genes = .ok out ∧
      out.columns.head? = some "Sample" ∧
      ∀ g ∈ genes, g ∉ df.columns → g ∉ out.columns := by
  refine ⟨_, keepOnlySelectedGenes_eq_ok e META INFO df genes hS, rfl, ?_⟩
  intro g _ hgnot hgmem
  exact hgnot (mem_commonColumns e META INFO df genes hS g hgmem)

/-- A selection fixture: a table with `Sample` and two gene columns. -/
def dfSel : DataFrame :=
  ⟨["Sample", "X", "Y"], [[some "s1", some "1", some "2"]]⟩

/-- Claim C6 witness: on `dfSel` with requests `X` (present) and `Nope`
(absent), the output starts with `Sample` and omits `Nope`. -/
theorem select_genes_sample_first_witness :
    ∃ out, keepOnlySelectedGenes eSorted [] [] dfSel ["X", "Nope"] = .ok out ∧
      out.columns.head? = some "Sample" ∧
      ∀ g ∈ ["X", "Nope"], g ∉ dfSel.columns → g ∉ out.columns :=
  select_genes_sample_first eSorted [] [] dfSel ["X", "Nope"] (by decide)

/-- Claim C7 counterexample: the output column order of
`_keep_only_selected_genes` is built with `list(...)` conversions of Python
string sets, whose iteration order follows the interpreter's randomised hash
seed: two runs under different seeds (modelled by the two enumeration
strategies `listEnum ["X", "Y"]` and `listEnum ["Y", "X"]`) produce different
column orders on the same input, so the order is not the same for every
run. -/
theorem select_genes_order_depends_on_enum :
    keepOnlySelectedGenes (listEnum ["X", "Y"]) [] [] dfSel ["X", "Y"] =
      .ok ⟨["Sample", "X", "Y"], [[some "s1", some "1", some "2"]]⟩ ∧
    keepOnlySelectedGenes (listEnum ["Y", "X"]) [] [] dfSel ["X", "Y"] =
      .ok ⟨["Sample", "Y", "X"], [[some "s1", some "2", some "1"]]⟩ ∧
    (["Sample", "X", "Y"] : List String) ≠ ["Sample", "Y", "X"] := by
  refine ⟨by rfl, by rfl, by decide⟩

/-- Claim C7 amended: for each fixed set-iteration order (one interpreter
run / hash seed) the output column order is a deterministic function of the
input with the claimed group structure: `Sample` first, then the remaining
fixed columns (no duplicates, exactly the set `fixed - {"Sample"}`), then
the selected genes (no duplicates, exactly `common - fixed`); the order
inside the two groups may differ between interpreter runs. -/
theorem select_genes_group_structure (e : SetEnum) (META INFO : List String)
    (df : DataFrame) (genes : List String) (hS : "Sample" ∈ df.columns) :
    ∃ out A B, keepOnlySelectedGenes e META INFO df genes = .ok out ∧
      out.columns = "Sample" :: (A ++ B) ∧ A.Nodup ∧ B.Nodup ∧
      A.toFinset = fixedColumns META INFO df \ {"Sample"} ∧
      B.toFinset = commonColumnsSet META INFO df genes \ fixedColumns META INFO df :=
  ⟨_, _, _, keepOnlySelectedGenes_eq_ok e META INFO df genes hS, rfl,
    e.nodup_enum _, e.nodup_enum _, enum_toFinset e _, enum_toFinset e _⟩

/-- Claim C7 amended witness: the group structure at a concrete input and
enumeration. -/
theorem select_genes_group_structure_witness :
    ∃ out A B, keepOnlySelectedGenes eSorted [] [] dfSel ["X", "Y"] = .ok out ∧
      out.columns = "Sample" :: (A ++ B) ∧ A.Nodup ∧ B.Nodup ∧
      A.toFinset = fixedColumns [] [] dfSel \ {"Sample"} ∧
      B.toFinset = commonColumnsSet [] [] dfSel ["X", "Y"] \ fixedColumns [] [] dfSel :=
  select_genes_group_structure eSorted [] [] dfSel ["X", "Y"] (by decide)

/-! ## Claim C10: a returned table always has a `Sample` column

After the inner metadata join every row's `Sample` cell is one of the
matched, non-null join keys, so the `Sample` column (always the leading
column at that point) has null count zero; the column pruning therefore
keeps it for every nonnegative threshold, and the metadata stripping does
not name it. -/

/-- The invariant carried from the metadata join to the final pruning: the
leading column is `Sample` and every row's leading cell is non-null. -/
def SampleHeaded (df : DataFrame) : Prop :=
  df.columns.head? = some "Sample" ∧ ∀ r ∈ df.rows, ∃ v, r.getD 0 none = some v

/-- A leading column named `c` is found at index 0. -/
theorem colIdx_of_head {df : DataFrame} {c : String}
    (h : df.columns.head? = some c) : df.colIdx c = some 0 := by
  unfold DataFrame.colIdx
  cases hc : df.columns with
  | nil => rw [hc] at h; simp at h
  | cons a l =>
    rw [hc] at h
    simp only [List.head?_cons, Option.some.injEq] at h
    subst h
    simp [List.findIdx?_cons]

/-- `df.select names` succeeds only with `names` as the output columns. -/
theorem select_ok_columns {df out : DataFrame} {names : List String}
    (h : df.select names = .ok out) :
    out = ⟨names, df.rows.map (fun r => names.map (fun n => df.cellNamed r n))⟩ := by
  unfold DataFrame.select at h
  by_cases hc : names.all (fun n => decide (n ∈ df.columns)) = true
  · rw [if_pos hc] at h; exact (Except.ok.inj h).symm
  · rw [if_neg hc] at h; exact absurd h (by simp)

/-- An inner join whose left key is the leading `Sample` column yields a
`Sample`-headed frame: every surviving row starts with its non-null join
key. -/
theorem sampleHeaded_innerJoin_left {l r j : DataFrame} {rk : String}
    (hl : l.columns.head? = some "Sample")
    (hj : l.innerJoin r "Sample" rk = .ok j) : SampleHeaded j := by
  unfold DataFrame.innerJoin at hj
  rw [colIdx_of_head hl] at hj
  cases hri : r.colIdx rk with
  | none => rw [hri] at hj; exact absurd hj (by simp)
  | some ri =>
    rw [hri] at hj
    obtain rfl := (Except.ok.inj hj).symm
    constructor
    · exact List.mem_head?_append_of_mem_head? hl
    · intro row hrow
      simp only [List.mem_flatMap] at hrow
      obtain ⟨lr, _, hin⟩ := hrow
      cases hk : lr.getD 0 none with
      | none => rw [hk] at hin; simp at hin
      | some k =>
        rw [hk] at hin
        simp only [List.mem_map] at hin
        obtain ⟨rr, _, rfl⟩ := hin
        refine ⟨k, ?_⟩
        have hlr : 0 < lr.length := by
          cases lr with
          | nil => simp at hk
          | cons a as => simp
        rw [List.getD_append _ _ _ _ hlr]
        exact hk

/-- Any inner join preserves `Sample`-headedness of the left frame. -/
theorem sampleHeaded_innerJoin {l r j : DataFrame} {lk rk : String}
    (hS : SampleHeaded l) (hj : l.innerJoin r lk rk = .ok j) : SampleHeaded j := by
  unfold DataFrame.innerJoin at hj
  cases hli : l.colIdx lk with
  | none => rw [hli] at hj; exact absurd hj (by simp)
  | some li =>
    rw [hli] at hj
    cases hri : r.colIdx rk with
    | none => rw [hri] at hj; exact absurd hj (by simp)
    | some ri =>
      rw [hri] at hj
      obtain rfl := (Except.ok.inj hj).symm
      obtain ⟨hhead, hrows⟩ := hS
      constructor
      · exact List.mem_head?_append_of_mem_head? hhead
      · intro row hrow
        simp only [List.mem_flatMap] at hrow
        obtain ⟨lr, hlr, hin⟩ := hrow
        cases hk : lr.getD li none with
        | none => rw [hk] at hin; simp at hin
        | some k =>
          rw [hk] at hin
          simp only [List.mem_map] at hin
          obtain ⟨rr, _, rfl⟩ := hin
          obtain ⟨v, hv⟩ := hrows lr hlr
          refine ⟨v, ?_⟩
          have hlr0 : 0 < lr.length := by
            cases lr with
            | nil => simp at hv
            | cons a as => simp
          rw [List.getD_append _ _ _ _ hlr0]
          exact hv

/-- Row filters keep the columns and a subset of the rows. -/
theorem sampleHeaded_filterEq {df out : DataFrame} {c v : String}
    (hS : SampleHeaded df) (h : df.filterEq c v = .ok out) : SampleHeaded out := by
  unfold DataFrame.filterEq at h
  by_cases hc : c ∈ df.columns
  · rw [if_pos hc] at h
    obtain rfl := (Except.ok.inj h).symm
    exact ⟨hS.1, fun r hr => hS.2 r (List.mem_filter.1 hr).1⟩
  · rw [if_neg hc] at h; exact absurd h (by simp)

/-- As `sampleHeaded_filterEq`, for the conjunction filter. -/
theorem sampleHeaded_filterEq2 {df out : DataFrame} {c1 v1 c2 v2 : String}
    (hS : SampleHeaded df) (h : df.filterEq2 c1 v1 c2 v2 = .ok out) :
    SampleHeaded out := by
  unfold DataFrame.filterEq2 at h
  by_cases hc : c1 ∈ df.columns ∧ c2 ∈ df.columns
  · rw [if_pos hc] at h
    obtain rfl := (Except.ok.inj h).symm
    exact ⟨hS.1, fun r hr => hS.2 r (List.mem_filter.1 hr).1⟩
  · rw [if_neg hc] at h; exact absurd h (by simp)

/-- As `sampleHeaded_filterEq`, for the `is_in` filter. -/
theorem sampleHeaded_filterIn {df out : DataFrame} {c : String} {vals : List String}
    (hS : SampleHeaded df) (h : df.filterIn c vals = .ok out) : SampleHeaded out := by
  unfold DataFrame.filterIn at h
  by_cases hc : c ∈ df.columns
  · rw [if_pos hc] at h
    obtain rfl := (Except.ok.inj h).symm
    exact ⟨hS.1, fun r hr => hS.2 r (List.mem_filter.1 hr).1⟩
  · rw [if_neg hc] at h; exact absurd h (by simp)

/-- `_keep_only_selected_genes` re-selects `Sample` as the first column and
keeps its cells. -/
theorem sampleHeaded_keepGenes {e : SetEnum} {META INFO : List String}
    {df out : DataFrame} {genes : List String}
    (hS : SampleHeaded df) (h : keepOnlySelectedGenes e META INFO df genes = .ok out) :
    SampleHeaded out := by
  unfold keepOnlySelectedGenes at h
  obtain rfl := select_ok_columns h
  refine ⟨rfl, ?_⟩
  intro r hr
  simp only [List.mem_map] at hr
  obtain ⟨r0, hr0, rfl⟩ := hr
  obtain ⟨v, hv⟩ := hS.2 r0 hr0
  refine ⟨v, ?_⟩
  show ((commonColumns e META INFO df genes).map (fun n => df.cellNamed r0 n)).getD 0 none
    = some v
  unfold commonColumns
  simp only [List.map_cons, List.getD_cons_zero]
  unfold DataFrame.cellNamed
  rw [colIdx_of_head hS.1]
  exact hv

/-- The optional gene selection preserves `Sample`-headedness. -/
theorem sampleHeaded_optGeneFilter {e : SetEnum} {META INFO : List String}
    {df out : DataFrame} {genes : Option (List String)}
    (hS : SampleHeaded df) (h : optGeneFilter e META INFO df genes = .ok out) :
    SampleHeaded out := by
  cases genes with
  | none => obtain rfl := (Except.ok.inj h).symm; exact hS
  | some gs => exact sampleHeaded_keepGenes hS h

/-- The optional sample selection preserves `Sample`-headedness. -/
theorem sampleHeaded_optSampleFilter {df out : DataFrame}
    {samples : Option (List String)}
    (hS : SampleHeaded df) (h : optSampleFilter df samples = .ok out) :
    SampleHeaded out := by
  cases samples with
  | none => obtain rfl := (Except.ok.inj h).symm; exact hS
  | some ss => exact sampleHeaded_filterIn hS h

/-- The selector-specific filter step preserves `Sample`-headedness in every
arm: the row filters only drop rows, the gene selection re-selects `Sample`
first, and the wildcard arm is the identity. -/
theorem sampleHeaded_extraFilter {e : SetEnum} {META INFO : List String}
    {dl : DataLoader} {df out : DataFrame}
    (hS : SampleHeaded df) (h : extraFilter e META INFO dl df = .ok out) :
    SampleHeaded out := by
  cases dl with
  | conditionTissueDataLoader c t => exact sampleHeaded_filterEq hS h
  | conditionSequencingDataLoader c s => exact sampleHeaded_filterEq hS h
  | fileDataLoader c f genes samples =>
    simp only [extraFilter] at h
    cases hk : optGeneFilter e META INFO df genes with
    | error e1 => rw [hk] at h; simp at h
    | ok df1 =>
      rw [hk, ebind_ok] at h
      exact sampleHeaded_optSampleFilter (sampleHeaded_optGeneFilter hS hk) h
  | conditionSequencingTissueDataLoader c s t genes =>
    simp only [extraFilter] at h
    cases hk : df.filterEq2 "Tissue" t.value "Method" s.value with
    | error e1 => rw [hk] at h; simp at h
    | ok df1 =>
      rw [hk, ebind_ok] at h
      exact sampleHeaded_optGeneFilter (sampleHeaded_filterEq2 hS hk) h
  | conditionDataLoader c => obtain rfl := (Except.ok.inj h).symm; exact hS
  | other d => obtain rfl := (Except.ok.inj h).symm; exact hS

/-- The null pruning keeps a `Sample`-headed frame's `Sample` column for any
nonnegative threshold: the column's null count is zero, and `0 / height ≤
thr` holds whenever `thr` is nonnegative. -/
theorem sample_mem_colNullPrune {df : DataFrame} {thr : Frac}
    (hS : SampleHeaded df) (hthr : 0 ≤ thr.num) :
    "Sample" ∈ (df.colNullPrune thr).columns := by
  obtain ⟨hhead, hrows⟩ := hS
  apply List.mem_map.2
  refine ⟨(0, "Sample"), ?_, rfl⟩
  unfold DataFrame.pruneKeep
  rw [List.mem_filter]
  constructor
  · rw [List.mem_enum_iff_getElem?]
    cases hcl : df.columns with
    | nil => rw [hcl] at hhead; simp at hhead
    | cons a l =>
      rw [hcl] at hhead
      simp only [List.head?_cons, Option.some.injEq] at hhead
      subst hhead
      simp
  · rw [decide_eq_true_eq]
    have hzero : DataFrame.colNullCount df 0 = 0 := by
      unfold DataFrame.colNullCount
      rw [List.countP_eq_zero]
      intro r hr
      obtain ⟨v, hv⟩ := hrows r hr
      rw [hv]
      simp
    show Frac.le _ _
    unfold Frac.le
    rw [hzero]
    simp only [Int.natCast_zero, zero_mul]
    exact mul_nonneg hthr (Int.natCast_nonneg _)

/-- A column that is present and not named in the drop list survives the
drop. -/
theorem mem_drop_columns_of {df : DataFrame} {names : List String} {c : String}
    (hc : c ∈ df.columns) (hn : c ∉ names) : c ∈ (df.drop names).columns := by
  obtain ⟨i, hi, hg⟩ := List.mem_iff_getElem.1 hc
  apply List.mem_map.2
  refine ⟨(i, c), ?_, rfl⟩
  unfold DataFrame.dropKeep
  rw [List.mem_filter]
  refine ⟨?_, by rw [decide_eq_true_eq]; exact hn⟩
  rw [List.mem_enum_iff_getElem?]
  rw [List.getElem?_eq_getElem hi]
  rw [hg]

/-- Claim C10: whenever `get_pre_processed_dataset` returns a table, that
table has a `Sample` column: after the inner metadata join every row's
`Sample` cell is a non-null join key, so the column-level null pruning never
removes the leading `Sample` column (threshold nonnegative), and the
metadata stripping does not name `Sample` (it is not a reserved column: the
source unions `{"Sample"}` separately from the reserved sets). -/
theorem result_contains_sample_column (e : SetEnum) (parse : String → Option String)
    (META INFO : List String) (dl : DataLoader) (data : List DataFrame)
    (metadata datasetsInfo : DataFrame) (thr : Frac) (rm : Bool) (df : DataFrame)
    (hthr : 0 ≤ thr.num) (hM : "Sample" ∉ META) (hI : "Sample" ∉ INFO)
    (h : getPreProcessedDataset e parse META INFO dl data metadata datasetsInfo thr rm =
      .ok (some df)) :
    "Sample" ∈ df.columns := by
  unfold getPreProcessedDataset at h
  cases hp : preFiltered e parse META INFO dl data metadata datasetsInfo with
  | error msg => rw [hp] at h; simp at h
  | ok t =>
    rw [hp] at h
    have hT : SampleHeaded t := by
      unfold preFiltered at hp
      cases h1 : outerJoinAll data with
      | error e1 => rw [h1] at hp; simp at hp
      | ok joined =>
        rw [h1, ebind_ok] at hp
        cases h2 : joined.transposeIH.renameByHeadRow with
        | error e2 => rw [h2] at hp; simp at hp
        | ok t1 =>
          rw [h2, ebind_ok] at hp
          cases h3 : t1.slice1.rename1 "gene" "Sample" with
          | error e3 => rw [h3] at hp; simp at hp
          | ok t2 =>
            rw [h3, ebind_ok] at hp
            cases h4 : t2.select ["Sample"] with
            | error e4 => rw [h4] at hp; simp at hp
            | ok sampleCol =>
              rw [h4, ebind_ok] at hp
              cases h5 : (t2.selectExclude "Sample").castF64 parse with
              | error e5 => rw [h5] at hp; simp at hp
              | ok rest =>
                rw [h5, ebind_ok] at hp
                cases h6 : metadata.uniqueBy "Sample" with
                | error e6 => rw [h6] at hp; simp at hp
                | ok mu =>
                  rw [h6, ebind_ok] at hp
                  cases h7 : (sampleCol.withColumnsDF rest).innerJoin mu "Sample" "Sample" with
                  | error e7 => rw [h7] at hp; simp at hp
                  | ok j1 =>
                    rw [h7, ebind_ok] at hp
                    cases h8 : j1.innerJoin datasetsInfo "GSE" "Dataset" with
                    | error e8 => rw [h8] at hp; simp at hp
                    | ok j2 =>
                      rw [h8, ebind_ok] at hp
                      have hsc : sampleCol.columns = ["Sample"] := by
                        obtain rfl := select_ok_columns h4; rfl
                      have hhead : (sampleCol.withColumnsDF rest).columns.head? =
                          some "Sample" := by
                        show (sampleCol.columns ++ _).head? = some "Sample"
                        rw [hsc]; rfl
                      have hj1 : SampleHeaded j1 :=
                        sampleHeaded_innerJoin_left hhead h7
                      have hj2 : SampleHeaded j2 := sampleHeaded_innerJoin hj1 h8
                      exact sampleHeaded_extraFilter hj2 hp
    by_cases h0 : t.height = 0
    · simp [h0] at h
    · simp only [h0, if_false] at h
      have hprune : "Sample" ∈ (t.colNullPrune thr).columns :=
        sample_mem_colNullPrune hT hthr
      cases rm with
      | true =>
        simp only [if_true] at h
        obtain rfl : t.colNullPrune thr = df := by
          have := Except.ok.inj h; exact Option.some.inj this
        exact hprune
      | false =>
        simp only [Bool.false_eq_true, if_false] at h
        obtain rfl : ((t.colNullPrune thr).drop META).drop INFO = df := by
          have := Except.ok.inj h; exact Option.some.inj this
        exact mem_drop_columns_of (mem_drop_columns_of hprune hM) hI

/-! ## Claim C9: the metadata join after de-duplication

`unique(subset=["Sample"])` keeps one metadata row per `Sample` value, so
the inner join on `Sample` pairs each data row (whose `Sample` values are
pairwise distinct, polars forbidding duplicate column names pre-transpose)
with at most one metadata row; a one-to-many metadata situation never
multiplies rows and never raises. -/

/-- Number of rows whose `Sample` cell equals `s`. -/
def countSample (df : DataFrame) (s : String) : Nat :=
  df.rows.countP (fun r => decide (df.cellNamed r "Sample" = some s))

/-- How many rows with a given key survive `keepFirstBy`: none if the key
was already seen, at most one otherwise. -/
theorem countP_keepFirstBy (k : List Cell → Cell) (v : Cell) :
    ∀ (rows : List (List Cell)) (seen : List Cell),
    (DataFrame.keepFirstBy k rows seen).countP (fun r => decide (k r = v)) =
      if v ∈ seen then 0
      else if rows.countP (fun r => decide (k r = v)) = 0 then 0 else 1 := by
  intro rows
  induction rows with
  | nil =>
    intro seen
    simp [DataFrame.keepFirstBy]
  | cons r rs ih =>
    intro seen
    simp only [DataFrame.keepFirstBy]
    by_cases hk : k r ∈ seen
    · rw [if_pos hk, ih]
      by_cases hv : v ∈ seen
      · simp [hv]
      · have hkv : (decide (k r = v)) = false := by
          rw [decide_eq_false_iff_not]
          intro he
          exact hv (he ▸ hk)
        simp [hv, List.countP_cons, hkv]
    · rw [if_neg hk, List.countP_cons, ih]
      by_cases hkv : k r = v
      · subst hkv
        simp [hk, List.countP_cons]
      · by_cases hv : v ∈ seen
        · have hv2 : v ∈ k r :: seen := List.mem_cons_of_mem _ hv
          simp [hv, hv2, List.countP_cons, hkv]
        · have hv2 : v ∉ k r :: seen := by
            rw [List.mem_cons]
            rintro (he | hc)
            · exact hkv he.symm
            · exact hv hc
          simp [hv, hv2, List.countP_cons, hkv]

/-- Counting over a `flatMap` is the sum of the per-element counts. -/
theorem countP_flatMap {α β : Type} (l : List α) (f : α → List β) (p : β → Bool) :
    (l.flatMap f).countP p = (l.map (fun a => (f a).countP p)).sum := by
  induction l with
  | nil => simp
  | cons a as ih => simp [List.flatMap_cons, List.countP_append, ih]

/-- Summing an indicator that pays `M` on rows satisfying `p`. -/
theorem sum_map_ite {α : Type} (M : Nat) (p : α → Prop) [DecidablePred p]
    (l : List α) :
    (l.map (fun a => if p a then M else 0)).sum = M * l.countP (fun a => decide (p a)) := by
  induction l with
  | nil => simp
  | cons a as ih =>
    rw [List.map_cons, List.sum_cons, ih, List.countP_cons]
    by_cases hp : p a
    · simp [hp, Nat.mul_add]
      omega
    · simp [hp]

/-- A list whose image under `g` has no duplicates holds exactly one element
mapping to any value the image attains. -/
theorem countP_eq_one_of_nodup_mem {α β : Type} [DecidableEq β] {g : α → β}
    {l : List α} {b : β} (hnd : (l.map g).Nodup) (hmem : b ∈ l.map g) :
    l.countP (fun a => decide (g a = b)) = 1 := by
  induction l with
  | nil => simp at hmem
  | cons a as ih =>
    rw [List.map_cons, List.nodup_cons] at hnd
    rw [List.map_cons, List.mem_cons] at hmem
    rw [List.countP_cons]
    by_cases hga : g a = b
    · have h0 : as.countP (fun x => decide (g x = b)) = 0 := by
        rw [List.countP_eq_zero]
        intro x hx
        rw [decide_eq_true_eq]
        intro he
        exact hnd.1 (hga ▸ he ▸ List.mem_map_of_mem g hx)
      simp [h0, hga]
    · rcases hmem with hb | hb
      · exact absurd hb.symm hga
      · rw [ih hnd.2 hb]
        simp [hga]

/-- Claim C9: with metadata de-duplicated by `Sample` (keeping one row per
value), the inner join keeps exactly one row for a sample present on both
sides, however many duplicate metadata rows carried that sample — and both
`unique` and the join return normally rather than raising.  `t` is the
transposed expression table (its `Sample` values are pairwise distinct and
its rows reach the key column), `m` the raw metadata table. -/
theorem metadata_join_unique_sample (t m : DataFrame) (s : String) (li ri : Nat)
    (hli : t.colIdx "Sample" = some li)
    (hri : m.colIdx "Sample" = some ri)
    (hwf : ∀ r ∈ t.rows, li < r.length)
    (hnd : (t.rows.map (fun r => r.getD li none)).Nodup)
    (hs : some s ∈ t.rows.map (fun r => r.getD li none))
    (hm : ∃ r ∈ m.rows, r.getD ri none = some s) :
    ∃ mu j, m.uniqueBy "Sample" = .ok mu ∧
      t.innerJoin mu "Sample" "Sample" = .ok j ∧ countSample j s = 1 := by
  set mur := DataFrame.keepFirstBy (fun r => r.getD ri none) m.rows [] with hmur
  have hMeq : m.uniqueBy "Sample" = .ok ⟨m.columns, mur⟩ := by
    unfold DataFrame.uniqueBy
    rw [hri]
  have hri2 : DataFrame.colIdx ⟨m.columns, mur⟩ "Sample" = some ri := hri
  have hJ : t.innerJoin ⟨m.columns, mur⟩ "Sample" "Sample" = .ok
      ⟨t.columns ++ (DataFrame.rkeepCols ⟨m.columns, mur⟩ ri).map
          (fun p => if p.2 ∈ t.columns then p.2 ++ "_right" else p.2),
        t.rows.flatMap (fun lr =>
          match lr.getD li none with
          | none => []
          | some k => (mur.filter (fun rr => decide (rr.getD ri none = some k))).map
              (fun rr => lr ++ (DataFrame.rkeepCols ⟨m.columns, mur⟩ ri).map
                (fun p => rr.getD p.1 none)))⟩ := by
    unfold DataFrame.innerJoin
    rw [hli, hri2]
  refine ⟨_, _, hMeq, hJ, ?_⟩
  have hM1 : mur.countP (fun rr => decide (rr.getD ri none = some s)) = 1 := by
    have hpos : ¬ (m.rows.countP (fun r => decide (r.getD ri none = some s)) = 0) := by
      obtain ⟨r0, hr0, hr0s⟩ := hm
      intro hzero
      have h0 := List.countP_eq_zero.1 hzero r0 hr0
      rw [decide_eq_true_eq] at h0
      exact h0 hr0s
    rw [hmur, countP_keepFirstBy (fun r => r.getD ri none) (some s) m.rows []]
    rw [if_neg (List.not_mem_nil _), if_neg hpos]
  have hidx : (t.columns ++ (DataFrame.rkeepCols ⟨m.columns, mur⟩ ri).map
      (fun p => if p.2 ∈ t.columns then p.2 ++ "_right" else p.2)).findIdx?
      (fun c => decide (c = "Sample")) = some li := by
    rw [List.findIdx?_append]
    rw [show t.columns.findIdx? (fun c => decide (c = "Sample")) = some li from hli]
    rfl
  have hcongr : ∀ lr ∈ t.rows,
      ((match lr.getD li none with
        | none => ([] : List (List Cell))
        | some k => (mur.filter (fun (rr : List Cell) =>
            decide (rr.getD ri none = some k))).map
            (fun (rr : List Cell) => lr ++ (DataFrame.rkeepCols ⟨m.columns, mur⟩ ri).map
              (fun (p : Nat × String) => rr.getD p.1 none))).countP
          (fun (r : List Cell) => decide (r.getD li none = some s))) =
      if lr.getD li none = some s then 1 else 0 := by
    intro lr hlr
    have hlen := hwf lr hlr
    have happ : ∀ (x : List Cell), (lr ++ x).getD li none = lr.getD li none :=
      fun x => List.getD_append _ _ _ _ hlen
    cases hk : lr.getD li none with
    | none => simp
    | some k =>
      simp only [List.countP_map]
      by_cases hks : k = s
      · subst hks
        rw [if_pos rfl]
        have hall : ∀ rr ∈ mur.filter (fun (rr : List Cell) =>
            decide (rr.getD ri none = some k)),
            ((fun (r : List Cell) => decide (r.getD li none = some k)) ∘
              (fun (rr : List Cell) => lr ++ (DataFrame.rkeepCols ⟨m.columns, mur⟩ ri).map
                (fun (p : Nat × String) => rr.getD p.1 none))) rr = true := by
          intro rr _
          rw [Function.comp_apply, decide_eq_true_eq, happ]
          exact hk
        rw [List.countP_eq_length.2 hall]
        rw [← List.countP_eq_length_filter]
        exact hM1
      · rw [if_neg (fun he => hks (Option.some.inj he))]
        rw [List.countP_eq_zero]
        intro rr _
        rw [Function.comp_apply, decide_eq_true_eq, happ, hk]
        intro he
        exact hks (Option.some.inj he)
  unfold countSample
  simp only [DataFrame.cellNamed, DataFrame.colIdx, hidx]
  rw [countP_flatMap]
  rw [List.map_congr_left hcongr]
  rw [sum_map_ite 1 (fun lr => lr.getD li none = some s) t.rows]
  rw [one_mul]
  exact countP_eq_one_of_nodup_mem hnd hs

/-- Claim C9 witness: one data row `S1` joined against a metadata table with
two rows for `S1` (different tissues) yields exactly one `S1` row. -/
theorem metadata_join_unique_sample_witness :
    ∃ mu j,
      (DataFrame.mk ["Sample", "Tissue"]
        [[some "S1", some "Blood"], [some "S1", some "Liver"]]).uniqueBy "Sample" =
        .ok mu ∧
      (DataFrame.mk ["Sample", "g1"] [[some "S1", some "1.0"]]).innerJoin mu
        "Sample" "Sample" = .ok j ∧
      countSample j "S1" = 1 :=
  metadata_join_unique_sample
    (DataFrame.mk ["Sample", "g1"] [[some "S1", some "1.0"]])
    (DataFrame.mk ["Sample", "Tissue"]
      [[some "S1", some "Blood"], [some "S1", some "Liver"]])
    "S1" 0 0 (by rfl) (by rfl) (by decide) (by decide) (by decide) (by decide)

/-- Claim C10 witness: the concrete pipeline run with metadata returned; the
resulting table contains `Sample`. -/
theorem result_contains_sample_column_witness :
    "Sample" ∈ (DataFrame.mk ["Sample", "g1", "GSE", "Tissue", "Platform"]
      [[some "S1", some "1.5", some "GSE1", some "Blood", some "P1"],
       [some "S2", some "2.5", some "GSE1", some "Blood", some "P1"]]).columns :=
  result_contains_sample_column eSorted parseId ["GSE", "Tissue"] ["Platform"]
    (DataLoader.conditionDataLoader ⟨"lupus"⟩) [dfData] dfMeta dfInfo ⟨1, 5⟩ true
    (DataFrame.mk ["Sample", "g1", "GSE", "Tissue", "Platform"]
      [[some "S1", some "1.5", some "GSE1", some "Blood", some "P1"],
       [some "S2", some "2.5", some "GSE1", some "Blood", some "P1"]])
    (by decide) (by decide) (by decide) (by rfl)

end Adex
